import Mathlib

/-!
A shallow embedding of the merge-queue bot in `homu/main.py` and proofs of the
specification claims about it.  Pure Python functions become Lean functions;
mutation of `PullReqState`, the sqlite store and the global `buildbot_slots`
cell becomes explicit state passing.  Strings are Lean `String`s; Python string
slicing is modelled on the underlying character list.
-/

namespace Homu

/-! ### Definitions -/

/-- Python `s[:n]` on a string (character-based slicing). -/
def strTake (s : String) (n : Nat) : String := ⟨s.toList.take n⟩

/-- Python `s[n:]` on a string (character-based slicing). -/
def strDrop (s : String) (n : Nat) : String := ⟨s.toList.drop n⟩

/-- Python `s.startswith(pre)`. -/
def strStartsWith (s pre : String) : Bool := pre.toList.isPrefixOf s.toList

/-- Python `needle in hay` for strings: substring containment. -/
def strContainsSub (hay needle : String) : Bool :=
  (List.range (hay.toList.length + 1)).any fun i => needle.toList.isPrefixOf (hay.toList.drop i)

/-- Value of a string of decimal digits. -/
def digitsVal (cs : List Char) : Nat :=
  cs.foldl (fun acc c => acc * 10 + (c.toNat - '0'.toNat)) 0

/-- Python `int(s)` restricted to what the bot can meet: an optional sign
followed by a nonempty run of decimal digits; everything else raises
`ValueError`, modelled as `none`. -/
def parsePyInt (s : String) : Option Int :=
  match s.toList with
  | [] => none
  | c :: rest =>
    let (neg, digits) :=
      if c = '-' then (true, rest)
      else if c = '+' then (false, rest)
      else (false, c :: rest)
    if digits ≠ [] ∧ digits.all Char.isDigit then
      some (if neg then -(digitsVal digits : Int) else (digitsVal digits : Int))
    else none

/-- Maximal runs of non-whitespace characters; `acc` holds the reversed current run. -/
def splitWordsAux : List Char → List Char → List String
  | [], acc => if acc = [] then [] else [⟨acc.reverse⟩]
  | c :: rest, acc =>
      if c.isWhitespace then
        (if acc = [] then [] else [⟨acc.reverse⟩]) ++ splitWordsAux rest []
      else splitWordsAux rest (c :: acc)

/-- Python `re.findall(r'\S+', body)`: the whitespace-separated words of the body. -/
def words (body : String) : List String := splitWordsAux body.toList []

/-- The sqlite `state` table: `(repo, num) ↦ (status, merge_sha)`, unique on the key.
`merge_sha` is `none` for SQL NULL. -/
def Store := List ((String × Nat) × (String × Option String))

instance : DecidableEq Store := by unfold Store; infer_instance

/-- SQL `INSERT OR REPLACE INTO state (repo, num, status) VALUES (...)`: the whole row is
replaced, so `merge_sha` becomes NULL. -/
def storeUpsertStatus (db : Store) (repo : String) (num : Nat) (status : String) : Store :=
  ((repo, num), (status, none)) :: db.filter (fun row => row.1 ≠ (repo, num))

/-- SQL `UPDATE state SET merge_sha = ? WHERE repo = ? AND num = ?`. -/
def storeUpdateMergeSha (db : Store) (repo : String) (num : Nat) (sha : String) : Store :=
  db.map (fun row => if row.1 = (repo, num) then (row.1, (row.2.1, some sha)) else row)

/-- SQL `DELETE FROM state WHERE repo = ? AND num = ?`. -/
def storeDelete (db : Store) (repo : String) (num : Nat) : Store :=
  db.filter (fun row => row.1 ≠ (repo, num))

/-- Row lookup by key. -/
def storeGet (db : Store) (repo : String) (num : Nat) : Option (String × Option String) :=
  (db.find? (fun row => row.1 = (repo, num))).map (·.2)

/-- The per-repository configuration dictionary (`cfg.toml` entry). -/
structure RepoCfg where
  name : String
  reviewers : List String
  master_branch : String
  tmp_branch : String
  buildbot_branch : String
  buildbot_try_branch : String
  builders : List String
  try_builders : List String
  travis_token : Option String
  deriving Repr, DecidableEq

/-- The dict `STATUS_TO_PRIORITY` at the top of `main.py`; `none` for a missing key. -/
def STATUS_TO_PRIORITY (s : String) : Option Int :=
  if s = "success" then some 0
  else if s = "pending" then some 1
  else if s = "approved" then some 2
  else if s = "" then some 3
  else if s = "error" then some 4
  else if s = "failure" then some 5
  else none

/-- The `PullReqState` class.  `repoName` stands for `self.repo.name`, the only part of
the repo handle the embedded methods read. -/
structure PullReqState where
  num : Nat
  head_sha : String
  status : String
  repoName : String
  approved_by : String := ""
  priority : Int := 0
  rollup : Bool := false
  try_ : Bool := false
  merge_sha : String := ""
  build_res : List (String × Option Bool) := []
  mergeable : Option Bool := none
  title : String := ""
  body : String := ""
  head_ref : String := ""
  base_ref : String := ""
  assignee : String := ""
  deriving Repr, DecidableEq

/-- Method `set_status`: store the new status in memory and upsert the row. -/
def PullReqState.set_status (st : PullReqState) (db : Store) (status : String) :
    PullReqState × Store :=
  ({ st with status := status }, storeUpsertStatus db st.repoName st.num status)

/-- Method `head_advanced`: reset the queueable attributes for a new head; with `use_db`
also persist the empty status. -/
def PullReqState.head_advanced (st : PullReqState) (head_sha : String) (db : Store)
    (use_db : Bool) : PullReqState × Store :=
  let st1 := { st with
    head_sha := head_sha
    approved_by := ""
    status := ""
    merge_sha := ""
    build_res := []
    try_ := false
    mergeable := none }
  if use_db then st1.set_status db "" else (st1, db)

/-- Method `get_status`: the derived status (`'approved'` when idle, approved and not
known-unmergeable). -/
def PullReqState.get_status (st : PullReqState) : String :=
  if st.status = "" ∧ st.approved_by ≠ "" ∧ st.mergeable ≠ some false then "approved"
  else st.status

/-- Method `sort_key`. -/
def PullReqState.sort_key (st : PullReqState) : List Int :=
  [ (STATUS_TO_PRIORITY st.get_status).getD (-1),
    if st.mergeable = some false then 1 else 0,
    if st.approved_by ≠ "" then 0 else 1,
    if st.rollup then 1 else 0,
    -st.priority,
    (st.num : Int) ]

/-- Python list comparison `<`, elementwise lexicographic with a shorter prefix
sorting first. -/
def pyListLt : List Int → List Int → Bool
  | [], [] => false
  | [], _ :: _ => true
  | _ :: _, [] => false
  | a :: as, b :: bs => if a < b then true else if b < a then false else pyListLt as bs

/-- Comparison `__lt__`: `self.sort_key() < other.sort_key()`. -/
def PullReqState.lt (a b : PullReqState) : Bool := pyListLt a.sort_key b.sort_key

/-- The function `sha_cmp(short, full)`. -/
def sha_cmp (short full : String) : Bool :=
  decide (4 ≤ short.length) && decide (short = strTake full short.length)

/-! ## The command parser (`parse_commands`) -/
/-- The read-only inputs of `parse_commands`.  `buildbotErr` abstracts the text of the
buildbot HTTP response inspected by the `force` command: `some err` when the response
carries an error message, `none` otherwise. -/
structure ParseEnv where
  username : String
  my_username : String
  realtime : Bool
  reviewers : List String
  buildbotErr : Option String
  deriving Repr, DecidableEq

/-- The mutable context of `parse_commands`: the local `sha` variable, the PR state,
the store cursor, the comments posted so far and the `state_changed` flag. -/
structure ParseSt where
  sha : String
  state : PullReqState
  db : Store
  comments : List String
  changed : Bool
  deriving DecidableEq

/-- The comment posted on an approval whose SHA does not match (`:scream_cat: ...`). -/
def mismatchComment (sha head_sha : String) : String :=
  let msg := if sha ≠ "" then "`" ++ sha ++ "` is not a valid commit SHA."
             else "No commit SHA found."
  ":scream_cat: " ++ msg ++ " Please try again with `" ++ strTake head_sha 7 ++ "`."

/-- One iteration of the token loop of `parse_commands`: `w` is the current word,
`nxt` is `words[i+1]` when it exists. -/
def pcStep (env : ParseEnv) (w : String) (nxt : Option String) (c : ParseSt) : ParseSt :=
  if w = "r+" ∨ strStartsWith w "r=" then
    -- `if not sha and i+1 < len(words): sha = words[i+1]`
    let sha1 := if c.sha = "" then (match nxt with | some n => n | none => c.sha) else c.sha
    if sha_cmp sha1 c.state.head_sha then
      { c with sha := sha1, changed := true,
               state := { c.state with
                 approved_by := if strStartsWith w "r=" then strDrop w 2 else env.username } }
    else if env.realtime then
      { c with sha := sha1, changed := true,
               comments := c.comments ++ [mismatchComment sha1 c.state.head_sha] }
    else
      { c with sha := sha1, changed := true }
  else if w = "r-" then
    { c with changed := true, state := { c.state with approved_by := "" } }
  else if strStartsWith w "p=" then
    match parsePyInt (strDrop w 2) with
    | some n => { c with changed := true, state := { c.state with priority := n } }
    | none => { c with changed := true }
  else if w = "retry" ∧ env.realtime then
    let (st1, db1) := c.state.set_status c.db ""
    { c with changed := true, state := st1, db := db1 }
  else if (w = "try" ∨ w = "try-") ∧ env.realtime then
    { c with changed := true,
             state := { c.state with try_ := w = "try", merge_sha := "", build_res := [] } }
  else if w = "rollup" ∨ w = "rollup-" then
    { c with changed := true, state := { c.state with rollup := w = "rollup" } }
  else if w = "force" ∧ env.realtime then
    { c with changed := true,
             comments := c.comments ++
               (match env.buildbotErr with
                | some err => [":bomb: Buildbot returned an error: `" ++ err ++ "`"]
                | none => []) }
  else c

/-- The token loop of `parse_commands`. -/
def pcLoop (env : ParseEnv) : List String → ParseSt → ParseSt
  | [], c => c
  | w :: rest, c => pcLoop env rest (pcStep env w rest.head? c)

/-- The function `parse_commands(body, username, repo_cfg, state, my_username, db, realtime, sha)`.
The returned `ParseSt` carries the final PR state, store, posted comments and the
boolean return value in `changed`. -/
def parse_commands (body username : String) (repo_cfg : RepoCfg) (state : PullReqState)
    (my_username : String) (db : Store) (realtime : Bool) (sha : String)
    (buildbotErr : Option String) : ParseSt :=
  if username ∉ repo_cfg.reviewers then ⟨sha, state, db, [], false⟩
  else if ¬ strContainsSub body ("@" ++ my_username) then ⟨sha, state, db, [], false⟩
  else pcLoop ⟨username, my_username, realtime, repo_cfg.reviewers, buildbotErr⟩
    (words body) ⟨sha, state, db, [], false⟩

/-! ## Shared concrete fixtures -/
/-- A travis-configured repository used in concrete scenarios. -/
def cfgEx : RepoCfg :=
  ⟨"repo1", ["rev"], "master", "tmp", "auto", "trybr", ["b1"], ["t1"], some "tok"⟩

/-- A fresh PR used in concrete scenarios. -/
def stEx : PullReqState := { num := 1, head_sha := "aaaa1111", status := "", repoName := "repo1" }

/-- A second fresh PR identical to `stEx` except for its number. -/
def stEx2 : PullReqState := { num := 2, head_sha := "aaaa1111", status := "", repoName := "repo1" }

/-! ## Claim C10: when parse_commands reports a change -/
/-- The word shapes the token loop recognizes (every branch of the `elif` chain that
keeps `found = True`), as a predicate of the word and the realtime flag. -/
def RecognizedTok (realtime : Bool) (w : String) : Prop :=
  w = "r+" ∨ strStartsWith w "r=" = true ∨ w = "r-" ∨ strStartsWith w "p=" = true ∨
  (w = "retry" ∧ realtime = true) ∨ ((w = "try" ∨ w = "try-") ∧ realtime = true) ∨
  w = "rollup" ∨ w = "rollup-" ∨ (w = "force" ∧ realtime = true)

instance (realtime : Bool) (w : String) : Decidable (RecognizedTok realtime w) := by
  unfold RecognizedTok; infer_instance

/-! ## Claim C7: idempotence of parse_commands on PR fields

The token loop is characterized as an input-determined set of field writes applied to
the incoming state: every branch of the `elif` chain writes constants that depend only
on the word list, the `sha` argument, the flags and `head_sha` (which the loop never
modifies), so running the loop twice applies the same writes twice. -/
/-- One optional write per PR field the parser can touch. -/
structure FieldWrites where
  approved_by : Option String := none
  priority : Option Int := none
  rollup : Option Bool := none
  try_ : Option Bool := none
  status : Option String := none
  merge_sha : Option String := none
  build_res : Option (List (String × Option Bool)) := none
  deriving Repr, DecidableEq

/-- Apply a set of field writes to a PR state. -/
def applyWrites (u : FieldWrites) (st : PullReqState) : PullReqState :=
  { st with
    approved_by := u.approved_by.getD st.approved_by
    priority := u.priority.getD st.priority
    rollup := u.rollup.getD st.rollup
    try_ := u.try_.getD st.try_
    status := u.status.getD st.status
    merge_sha := u.merge_sha.getD st.merge_sha
    build_res := u.build_res.getD st.build_res }

/-- Later write wins. -/
def ow {α : Type} (a b : Option α) : Option α :=
  match a with
  | some x => some x
  | none => b

/-- Composition: `mergeW u2 u1` is the write set of performing `u1` first and `u2` second. -/
def mergeW (u2 u1 : FieldWrites) : FieldWrites :=
  ⟨ow u2.approved_by u1.approved_by, ow u2.priority u1.priority, ow u2.rollup u1.rollup,
   ow u2.try_ u1.try_, ow u2.status u1.status, ow u2.merge_sha u1.merge_sha,
   ow u2.build_res u1.build_res⟩

/-- How the local `sha` variable evolves over one token. -/
def shaNext (w : String) (nxt : Option String) (sha : String) : String :=
  if w = "r+" ∨ strStartsWith w "r=" then
    (if sha = "" then (match nxt with | some n => n | none => sha) else sha)
  else sha

/-- The field writes performed by one token, as a function of inputs only. -/
def stepWrites (env : ParseEnv) (head_sha : String) (w : String) (nxt : Option String)
    (sha : String) : FieldWrites :=
  if w = "r+" ∨ strStartsWith w "r=" then
    let sha1 := if sha = "" then (match nxt with | some n => n | none => sha) else sha
    if sha_cmp sha1 head_sha then
      { approved_by := some (if strStartsWith w "r=" then strDrop w 2 else env.username) }
    else {}
  else if w = "r-" then { approved_by := some "" }
  else if strStartsWith w "p=" then
    match parsePyInt (strDrop w 2) with
    | some n => { priority := some n }
    | none => {}
  else if w = "retry" ∧ env.realtime then { status := some "" }
  else if (w = "try" ∨ w = "try-") ∧ env.realtime then
    { try_ := some (decide (w = "try")), merge_sha := some "", build_res := some [] }
  else if w = "rollup" ∨ w = "rollup-" then { rollup := some (decide (w = "rollup")) }
  else if w = "force" ∧ env.realtime then {}
  else {}

/-- The combined field writes of the whole token loop. -/
def loopWrites (env : ParseEnv) (head_sha : String) : List String → String → FieldWrites
  | [], _ => {}
  | w :: rest, sha =>
      mergeW (loopWrites env head_sha rest (shaNext w rest.head? sha))
             (stepWrites env head_sha w rest.head? sha)

/-- The PR fields `parse_commands` can modify. -/
def prFields (st : PullReqState) :
    String × Int × Bool × Bool × String × String × List (String × Option Bool) :=
  (st.approved_by, st.priority, st.rollup, st.try_, st.status, st.merge_sha, st.build_res)

/-! ## Claim C3: the sort key and the queue order -/
/-- The status bucket exactly as the claim words it: `success`=0, `pending`=1,
`approved`=2, `""`=3, `error`=4, `failure`=5, anything else −1. -/
def statusBucketSpec (s : String) : Int :=
  if s = "success" then 0 else if s = "pending" then 1 else if s = "approved" then 2
  else if s = "" then 3 else if s = "error" then 4 else if s = "failure" then 5 else -1

/-! ## The merge/build driver (`start_build`) -/
/-- The parts of the hosted platform `start_build` consults: the live head SHA of each
PR, the tip of the master branch, and the merge call, which yields `some merge_sha` or
`none` for an HTTP 409 merge conflict. -/
structure Platform where
  prHeads : List (Nat × String)
  masterSha : String
  mergeFn : String → String → Option String

/-- Lookup of `repo.pull_request(num).head.sha`. -/
def Platform.prHead (p : Platform) (num : Nat) : Option String :=
  (p.prHeads.find? (fun e => e.1 = num)).map (·.2)

/-- The outcome of `start_build`: the Python boolean, or the `assert` on the live head
SHA raising. -/
inductive SBRet
  | crashed
  | ret (b : Bool)
  deriving Repr, DecidableEq

/-- Recorded platform side effects: ref moves, commit statuses, comments. -/
inductive SBEffect
  | setRef (branch sha : String)
  | createStatus (sha state desc : String)
  | comment (text : String)
  deriving Repr, DecidableEq

structure SBResult where
  ret : SBRet
  state : PullReqState
  slot : String
  db : Store
  effects : List SBEffect

/-- The function `start_build(state, repo, repo_cfgs, buildbot_slots, logger, db)`; `slot` is the
content of `buildbot_slots[0]`. -/
def start_build (state : PullReqState) (p : Platform) (repo_cfg : RepoCfg) (slot : String)
    (db : Store) : SBResult :=
  if slot ≠ "" then ⟨.ret true, state, slot, db, []⟩
  else if p.prHead state.num ≠ some state.head_sha then ⟨.crashed, state, slot, db, []⟩
  else
    let master_sha := p.masterSha
    let eff0 := [SBEffect.setRef repo_cfg.tmp_branch master_sha]
    match p.mergeFn master_sha state.head_sha with
    | none =>
      let (st1, db1) := state.set_status db "error"
      ⟨.ret false, st1, slot, db1,
        eff0 ++ [.createStatus state.head_sha "error" "Merge conflict",
                 .comment ":umbrella: Merge conflict"]⟩
    | some mergeSha =>
      let branch := if repo_cfg.travis_token.isSome then repo_cfg.buildbot_branch
        else (if state.try_ then repo_cfg.buildbot_try_branch else repo_cfg.buildbot_branch)
      let builders := if repo_cfg.travis_token.isSome then ["travis"]
        else (if state.try_ then repo_cfg.try_builders else repo_cfg.builders)
      let st1 := { state with
        build_res := builders.map (fun x => (x, (none : Option Bool)))
        merge_sha := mergeSha }
      let slot1 := if repo_cfg.travis_token.isNone then st1.merge_sha else slot
      let desc := (if st1.try_ then "Trying" else "Testing") ++ " commit " ++
        strTake st1.head_sha 7 ++ " with merge " ++ strTake st1.merge_sha 7 ++ "..."
      let (st2, db2) := st1.set_status db "pending"
      let db3 :=
        if st2.try_ = false then storeUpdateMergeSha db2 st2.repoName st2.num st2.merge_sha
        else db2
      ⟨.ret true, st2, slot1, db3,
        eff0 ++ [.setRef branch mergeSha,
                 .createStatus state.head_sha "pending" desc,
                 .comment (":hourglass: " ++ desc)]⟩

/-! ## Claim C2: the build slot in start_build -/
/-- A non-travis configuration for concrete scenarios. -/
def cfgNT : RepoCfg :=
  ⟨"repo2", ["rev"], "master", "tmp", "auto", "trybr", ["b1"], ["t1"], none⟩

/-- A try-marked, idle PR in `repo2`. -/
def stTry : PullReqState :=
  { num := 5, head_sha := "cccc3333", status := "", repoName := "repo2", try_ := true }

/-- A platform agreeing with `stTry` whose merges succeed deterministically. -/
def platNT : Platform :=
  ⟨[(5, "cccc3333")], "m0", fun _ head => some ("merge-" ++ head)⟩

/-! ## The scheduler tick (`process_queue`) -/
/-- Stable insertion: the new element goes after existing elements it does not
strictly precede, as Python's stable `sorted` does with `__lt__`. -/
def insertSorted (a : PullReqState) : List PullReqState → List PullReqState
  | [] => [a]
  | b :: bs => if PullReqState.lt a b then a :: b :: bs else b :: insertSorted a bs

/-- Python `sorted(states[repo.name].values())`. -/
def sortStates (l : List PullReqState) : List PullReqState :=
  l.foldl (fun acc a => insertSorted a acc) []

/-- How a repository walk ended: fell through (`done`, including the `break` on a
pending gated build), exited `process_queue` (`returned`), or the head assert raised. -/
inductive TickCtl
  | done
  | returned
  | crashed
  deriving Repr, DecidableEq

/-- Lookup of the shared PR object by number. -/
def getPR (prs : List PullReqState) (n : Nat) : Option PullReqState :=
  prs.find? (fun s => decide (s.num = n))

/-- Write back a mutated PR object. -/
def setPR (prs : List PullReqState) (st : PullReqState) : List PullReqState :=
  prs.map (fun s => if s.num = st.num then st else s)

structure RepoStep where
  prs : List PullReqState
  slot : String
  db : Store
  effects : List SBEffect
  ctl : TickCtl

/-- The first `for state in repo_states` loop of `process_queue`, iterating the sorted
snapshot by PR number. -/
def walk1 (cfg : RepoCfg) (p : Platform) :
    List Nat → List PullReqState → String → Store → List SBEffect → RepoStep
  | [], prs, slot, db, eff => ⟨prs, slot, db, eff, .done⟩
  | n :: rest, prs, slot, db, eff =>
    match getPR prs n with
    | none => walk1 cfg p rest prs slot db eff
    | some st =>
      if st.status = "pending" ∧ st.try_ = false then ⟨prs, slot, db, eff, .done⟩
      else if st.status = "" ∧ st.approved_by ≠ "" then
        let r := start_build st p cfg slot db
        match r.ret with
        | .crashed => ⟨setPR prs r.state, r.slot, r.db, eff ++ r.effects, .crashed⟩
        | .ret true => ⟨setPR prs r.state, r.slot, r.db, eff ++ r.effects, .returned⟩
        | .ret false => walk1 cfg p rest (setPR prs r.state) r.slot r.db (eff ++ r.effects)
      else if st.status = "success" ∧ st.try_ = true ∧ st.approved_by ≠ "" then
        let st0 := { st with try_ := false }
        let r := start_build st0 p cfg slot db
        match r.ret with
        | .crashed => ⟨setPR prs r.state, r.slot, r.db, eff ++ r.effects, .crashed⟩
        | .ret true => ⟨setPR prs r.state, r.slot, r.db, eff ++ r.effects, .returned⟩
        | .ret false => walk1 cfg p rest (setPR prs r.state) r.slot r.db (eff ++ r.effects)
      else walk1 cfg p rest prs slot db eff

/-- The second loop of `process_queue` (try builds only). -/
def walk2 (cfg : RepoCfg) (p : Platform) :
    List Nat → List PullReqState → String → Store → List SBEffect → RepoStep
  | [], prs, slot, db, eff => ⟨prs, slot, db, eff, .done⟩
  | n :: rest, prs, slot, db, eff =>
    match getPR prs n with
    | none => walk2 cfg p rest prs slot db eff
    | some st =>
      if st.status = "" ∧ st.try_ = true then
        let r := start_build st p cfg slot db
        match r.ret with
        | .crashed => ⟨setPR prs r.state, r.slot, r.db, eff ++ r.effects, .crashed⟩
        | .ret true => ⟨setPR prs r.state, r.slot, r.db, eff ++ r.effects, .returned⟩
        | .ret false => walk2 cfg p rest (setPR prs r.state) r.slot r.db (eff ++ r.effects)
      else walk2 cfg p rest prs slot db eff

/-- The body of `process_queue` for one repository: sort once, run both loops; a
Python `break` only leaves the first loop, so the second still runs. -/
def processRepo (cfg : RepoCfg) (p : Platform) (prs : List PullReqState) (slot : String)
    (db : Store) : RepoStep :=
  let order := (sortStates prs).map (·.num)
  let r1 := walk1 cfg p order prs slot db []
  match r1.ctl with
  | .done => walk2 cfg p order r1.prs r1.slot r1.db r1.effects
  | _ => r1

/-- One configured repository with its platform view and PR map. -/
structure RepoState where
  cfg : RepoCfg
  platform : Platform
  prs : List PullReqState

/-- The function `process_queue`: iterate the repositories in order; a `return` inside any repo's
walk (the final `Bool`) leaves the remaining repositories unvisited. -/
def processQueue : List RepoState → String → Store →
    (List RepoState × String × Store × List SBEffect × Bool)
  | [], slot, db => ([], slot, db, [], false)
  | r :: rest, slot, db =>
    let s := processRepo r.cfg r.platform r.prs slot db
    match s.ctl with
    | .done =>
      let (rest', slot', db', eff', ab) := processQueue rest s.slot s.db
      ({ r with prs := s.prs } :: rest', slot', db', s.effects ++ eff', ab)
    | _ => ({ r with prs := s.prs } :: rest, s.slot, s.db, s.effects, true)

/-! ## Claim C4: repositories are not independent within one tick -/
/-- A second travis-configured repository. -/
def cfgExB : RepoCfg :=
  ⟨"repoB", ["rev"], "master", "tmp", "auto", "trybr", ["b1"], ["t1"], some "tok"⟩

/-- Repository `repo1` holding an approved buildable PR #1. -/
def c4RepoA : RepoState :=
  ⟨cfgEx, ⟨[(1, "aaaa1111")], "m0", fun _ h => some ("merge-" ++ h)⟩,
    [{ num := 1, head_sha := "aaaa1111", status := "", repoName := "repo1",
       approved_by := "rev" }]⟩

/-- Repository `repoB` holding an approved buildable PR #2. -/
def c4RepoB : RepoState :=
  ⟨cfgExB, ⟨[(2, "bbbb2222")], "m0", fun _ h => some ("merge-" ++ h)⟩,
    [{ num := 2, head_sha := "bbbb2222", status := "", repoName := "repoB",
       approved_by := "rev" }]⟩

/-! ## Events and the global transition system -/
/-- The whole bot process: the per-repository states, the global `buildbot_slots[0]`
cell, the store and the bot account name. -/
structure World where
  repos : List RepoState
  slot : String
  db : Store
  my_username : String

/-- A comment event: routed to `parse_commands` with `realtime=True`. -/
def applyComment (w : World) (repoName : String) (num : Nat) (author body : String) :
    World :=
  match w.repos.find? (fun r => decide (r.cfg.name = repoName)) with
  | none => w
  | some r =>
    match getPR r.prs num with
    | none => w
    | some st =>
      let res := parse_commands body author r.cfg st w.my_username w.db true "" none
      { w with
        db := res.db
        repos := w.repos.map (fun r2 =>
          if r2.cfg.name = repoName then { r2 with prs := setPR r2.prs res.state } else r2) }

/-- Update the platform's record of a PR head. -/
def setHead (hs : List (Nat × String)) (num : Nat) (sha : String) : List (Nat × String) :=
  hs.map (fun e => if e.1 = num then (num, sha) else e)

/-- A push event: `head_advanced` on the PR state; the platform's head moves with it. -/
def applyPush (w : World) (repoName : String) (num : Nat) (sha : String) : World :=
  match w.repos.find? (fun r => decide (r.cfg.name = repoName)) with
  | none => w
  | some r =>
    match getPR r.prs num with
    | none => w
    | some st =>
      let (st1, db1) := st.head_advanced sha w.db true
      { w with
        db := db1
        repos := w.repos.map (fun r2 =>
          if r2.cfg.name = repoName then
            { r2 with
              prs := setPR r2.prs st1
              platform := { r2.platform with
                prHeads := setHead r2.platform.prHeads num sha } }
          else r2) }

/-- Modelled from the spec: the CI-result callback handler lives in `homu/server.py`,
which is not among the sources.  Per §4.5, §4.8 and scenario 4 of §8: the callback is
keyed by commit SHA; the PR whose `merge_sha` matches records the builder's result in
`build_res`; any `false` result makes the build an overall failure
(`status="failure"`, the slot is released if this build held it); all `true` makes it
an overall success (`status="success"`; a gated build fast-forwards the master branch
to `merge_sha` and releases the slot, a try build only reports and keeps its fields).
A callback matching no PR is discarded, releasing the slot when it names the slot's
occupant. -/
def applyCIRes (w : World) (builder sha : String) (pass : Bool) : World :=
  match w.repos.find?
      (fun r => r.prs.any (fun st => decide (st.merge_sha = sha ∧ st.merge_sha ≠ ""))) with
  | none => if w.slot = sha then { w with slot := "" } else w
  | some r =>
    match r.prs.find? (fun st => decide (st.merge_sha = sha ∧ st.merge_sha ≠ "")) with
    | none => w
    | some st =>
      let br := st.build_res.map (fun e => if e.1 = builder then (e.1, some pass) else e)
      let st1 := { st with build_res := br }
      let put := fun (w2 : World) (stNew : PullReqState) (ffMaster : Bool) =>
        { w2 with repos := w2.repos.map (fun r2 =>
            if r2.cfg.name = r.cfg.name then
              { r2 with
                prs := setPR r2.prs stNew
                platform := if ffMaster then
                    { r2.platform with masterSha := stNew.merge_sha }
                  else r2.platform }
            else r2) }
      if br.any (fun e => e.2 = some false) then
        let (st2, db2) := st1.set_status w.db "failure"
        put { w with db := db2, slot := if w.slot = sha then "" else w.slot } st2 false
      else if br.all (fun e => e.2 = some true) then
        let (st2, db2) := st1.set_status w.db "success"
        if st2.try_ then put { w with db := db2 } st2 false
        else put { w with db := db2, slot := if w.slot = sha then "" else w.slot } st2 true
      else put w st1 false

/-- A scheduler pass over all repositories. -/
def applyTick (w : World) : World :=
  let r := processQueue w.repos w.slot w.db
  { w with repos := r.1, slot := r.2.1, db := r.2.2.1 }

/-- The inbound event alphabet of claim C1. -/
inductive Event
  | comment (repoName : String) (num : Nat) (author body : String)
  | push (repoName : String) (num : Nat) (sha : String)
  | ciRes (builder sha : String) (pass : Bool)
  | tick

def applyEvent (w : World) : Event → World
  | .comment rn n a b => applyComment w rn n a b
  | .push rn n s => applyPush w rn n s
  | .ciRes b s ok => applyCIRes w b s ok
  | .tick => applyTick w

def runEvents (w : World) (es : List Event) : World := es.foldl applyEvent w

/-! ## Claim C1: the one-gated-pending-per-repo invariant -/
/-- PR #1 of `repo1`, fresh. -/
def c1P1 : PullReqState :=
  { num := 1, head_sha := "aaaa1111", status := "", repoName := "repo1" }

/-- PR #2 of `repo1`, fresh. -/
def c1P2 : PullReqState :=
  { num := 2, head_sha := "bbbb2222", status := "", repoName := "repo1" }

/-- The start state: one travis-configured repository with two open idle PRs, an empty
build slot and an empty store. -/
def c1World : World :=
  { repos := [⟨cfgEx,
      ⟨[(1, "aaaa1111"), (2, "bbbb2222")], "m0", fun _ h => some ("merge-" ++ h)⟩,
      [c1P1, c1P2]⟩],
    slot := "", db := [], my_username := "bot" }

/-- A reachable sequence: try PR #2, build it, approve PR #1 (its gated build starts),
PR #2's try build succeeds, approve PR #2, tick. -/
def c1Events : List Event :=
  [ .comment "repo1" 2 "rev" "@bot try",
    .tick,
    .comment "repo1" 1 "rev" "@bot r+ aaaa",
    .tick,
    .ciRes "travis" "merge-bbbb2222" true,
    .comment "repo1" 2 "rev" "@bot r+ bbbb",
    .tick ]

/-! ## Claim C8: startup recovery -/
/-- The in-memory PR map built at startup, keyed by `(repo, num)`. -/
def statesGet (states : List ((String × Nat) × PullReqState)) (k : String × Nat) :
    Option PullReqState :=
  (states.find? (fun e => decide (e.1 = k))).map (·.2)

def statesSet (states : List ((String × Nat) × PullReqState)) (k : String × Nat)
    (st : PullReqState) : List ((String × Nat) × PullReqState) :=
  states.map (fun e => if e.1 = k then (k, st) else e)

/-- One row of the startup scan over `SELECT repo, num, merge_sha FROM state` (`main`,
lines after the PR load): a row without a live PR is deleted; a row with a non-empty
`merge_sha` reinitializes `build_res` from the configured builders (the single
`travis` builder when a travis token is configured) and restores `merge_sha`;
otherwise a PR still `pending` is downgraded to `""` in memory. -/
def scanRow (repo_cfgs : String → RepoCfg)
    (acc : List ((String × Nat) × PullReqState) × Store)
    (row : (String × Nat) × (String × Option String)) :
    List ((String × Nat) × PullReqState) × Store :=
  let repoName := row.1.1
  let num := row.1.2
  let merge_sha := row.2.2
  match statesGet acc.1 (repoName, num) with
  | none => (acc.1, storeDelete acc.2 repoName num)
  | some st =>
    if merge_sha.getD "" ≠ "" then
      let cfg := repo_cfgs repoName
      let builders := if cfg.travis_token.isSome then ["travis"] else cfg.builders
      (statesSet acc.1 (repoName, num)
        { st with
          build_res := builders.map (fun x => (x, (none : Option Bool)))
          merge_sha := merge_sha.getD "" }, acc.2)
    else if st.status = "pending" then
      (statesSet acc.1 (repoName, num) { st with status := "" }, acc.2)
    else acc

/-- The whole startup scan. -/
def scanRows (repo_cfgs : String → RepoCfg)
    (rows : List ((String × Nat) × (String × Option String)))
    (states : List ((String × Nat) × PullReqState)) (db : Store) :
    List ((String × Nat) × PullReqState) × Store :=
  rows.foldl (scanRow repo_cfgs) (states, db)

/-- A PR persisted as `pending`. -/
def stPend7 : PullReqState :=
  { num := 7, head_sha := "aaaa1111", status := "pending", repoName := "repo1" }

/-! ### Theorems -/

/-! ## Claim C5: the SHA match rule -/
theorem take_eq_iff_exists_append (a b : List Char) :
    a = b.take a.length ↔ ∃ t, a ++ t = b := by
  induction a generalizing b with
  | nil => simp
  | cons x xs ih =>
    cases b with
    | nil => simp
    | cons y ys =>
      simp only [List.length_cons, List.take_succ_cons, List.cons.injEq, List.cons_append,
        ih ys]
      exact ⟨fun ⟨h1, t, h2⟩ => ⟨t, h1, h2⟩, fun ⟨t, h1, h2⟩ => ⟨h1, t, h2⟩⟩

theorem eq_strTake_iff (s h : String) :
    s = strTake h s.length ↔ ∃ t, s.toList ++ t = h.toList := by
  cases s with
  | mk sd =>
    cases h with
    | mk hd =>
      rw [String.ext_iff]
      simpa [strTake, String.toList, String.length] using take_eq_iff_exists_append sd hd

/-- C5: for every candidate string `s` and head SHA `h`, `sha_cmp s h` holds iff `s` is
at least 4 characters long and `s` is a prefix of `h`; and in `parse_commands` a
4-character prefix of `head_sha` approves the PR while a 3-character prefix does not. -/
theorem c5_sha_cmp_prefix_rule :
    (∀ s h : String, sha_cmp s h = true ↔ (4 ≤ s.length ∧ ∃ t, s.toList ++ t = h.toList)) ∧
    (parse_commands "@bot r+ aaaa" "rev" cfgEx stEx "bot" [] true "" none).state.approved_by
      = "rev" ∧
    (parse_commands "@bot r+ aaa" "rev" cfgEx stEx "bot" [] true "" none).state.approved_by
      = "" := by
  refine ⟨fun s h => ?_, by decide, by decide⟩
  rw [sha_cmp, Bool.and_eq_true, decide_eq_true_eq, decide_eq_true_eq, eq_strTake_iff]

/-! ## Claim C6: head_advanced resets and persists -/
/-- C6: `head_advanced new_sha` sets `head_sha` to `new_sha`, resets `approved_by`,
`status`, `merge_sha`, `build_res`, `try_` and `mergeable` in the same step, and
persists the empty status to the store. -/
theorem c6_head_advanced_resets (st : PullReqState) (db : Store) (sha : String) :
    (st.head_advanced sha db true).1.head_sha = sha ∧
    (st.head_advanced sha db true).1.approved_by = "" ∧
    (st.head_advanced sha db true).1.status = "" ∧
    (st.head_advanced sha db true).1.merge_sha = "" ∧
    (st.head_advanced sha db true).1.build_res = [] ∧
    (st.head_advanced sha db true).1.try_ = false ∧
    (st.head_advanced sha db true).1.mergeable = none ∧
    storeGet (st.head_advanced sha db true).2 st.repoName st.num = some ("", none) := by
  simp [PullReqState.head_advanced, PullReqState.set_status, storeUpsertStatus, storeGet,
    List.find?]

/-! ## Claim C9: the authorization / mention gate -/
/-- C9: a comment whose author is not in the reviewer allow-list, or whose body does not
mention the bot's own `@username`, is ignored entirely: `parse_commands` returns `false`
and leaves the PR state (and store) untouched. -/
theorem c9_gate_ignores (body username : String) (cfg : RepoCfg) (st : PullReqState)
    (my : String) (db : Store) (realtime : Bool) (sha : String) (berr : Option String)
    (h : username ∉ cfg.reviewers ∨ strContainsSub body ("@" ++ my) = false) :
    parse_commands body username cfg st my db realtime sha berr = ⟨sha, st, db, [], false⟩ := by
  unfold parse_commands
  rcases h with h | h
  · rw [if_pos h]
  · have h1 : ¬ (strContainsSub body ("@" ++ my) = true) := by simp [h]
    by_cases hm : username ∉ cfg.reviewers
    · rw [if_pos hm]
    · rw [if_neg hm, if_pos h1]

theorem c9_gate_ignores_witness :
    parse_commands "@bot r+ aaaa" "stranger" cfgEx stEx "bot" [] true "" none
      = ⟨"", stEx, [], [], false⟩ :=
  c9_gate_ignores "@bot r+ aaaa" "stranger" cfgEx stEx "bot" [] true "" none
    (Or.inl (by decide))

theorem pcStep_changed (env : ParseEnv) (w : String) (nxt : Option String) (c : ParseSt) :
    ((pcStep env w nxt c).changed = true ↔
      (c.changed = true ∨ RecognizedTok env.realtime w)) := by
  unfold pcStep
  by_cases h1 : w = "r+" ∨ strStartsWith w "r=" = true
  · rw [if_pos h1]
    refine ⟨fun _ => Or.inr (by unfold RecognizedTok; tauto), fun _ => ?_⟩
    dsimp only
    split_ifs <;> rfl
  rw [if_neg h1]
  by_cases h2 : w = "r-"
  · rw [if_pos h2]
    exact ⟨fun _ => Or.inr (by unfold RecognizedTok; tauto), fun _ => rfl⟩
  rw [if_neg h2]
  by_cases h3 : strStartsWith w "p=" = true
  · rw [if_pos h3]
    cases parsePyInt (strDrop w 2) <;>
      exact ⟨fun _ => Or.inr (by unfold RecognizedTok; tauto), fun _ => rfl⟩
  rw [if_neg h3]
  by_cases h4 : w = "retry" ∧ env.realtime = true
  · rw [if_pos h4]
    exact ⟨fun _ => Or.inr (by unfold RecognizedTok; tauto), fun _ => rfl⟩
  rw [if_neg h4]
  by_cases h5 : (w = "try" ∨ w = "try-") ∧ env.realtime = true
  · rw [if_pos h5]
    exact ⟨fun _ => Or.inr (by unfold RecognizedTok; tauto), fun _ => rfl⟩
  rw [if_neg h5]
  by_cases h6 : w = "rollup" ∨ w = "rollup-"
  · rw [if_pos h6]
    exact ⟨fun _ => Or.inr (by unfold RecognizedTok; tauto), fun _ => rfl⟩
  rw [if_neg h6]
  by_cases h7 : w = "force" ∧ env.realtime = true
  · rw [if_pos h7]
    exact ⟨fun _ => Or.inr (by unfold RecognizedTok; tauto), fun _ => rfl⟩
  rw [if_neg h7]
  refine ⟨Or.inl, ?_⟩
  rintro (h | h)
  · exact h
  · exfalso
    unfold RecognizedTok at h
    tauto

theorem pcLoop_changed (env : ParseEnv) :
    ∀ (ws : List String) (c : ParseSt),
      ((pcLoop env ws c).changed = true ↔
        (c.changed = true ∨ ∃ w ∈ ws, RecognizedTok env.realtime w)) := by
  intro ws
  induction ws with
  | nil => intro c; simp [pcLoop]
  | cons w rest ih =>
    intro c
    show ((pcLoop env rest (pcStep env w rest.head? c)).changed = true ↔ _)
    rw [ih, pcStep_changed]
    simp only [List.mem_cons]
    constructor
    · rintro ((h | h) | ⟨x, hx, hr⟩)
      · exact Or.inl h
      · exact Or.inr ⟨w, Or.inl rfl, h⟩
      · exact Or.inr ⟨x, Or.inr hx, hr⟩
    · rintro (h | ⟨x, (rfl | hx), hr⟩)
      · exact Or.inl (Or.inl h)
      · exact Or.inl (Or.inr hr)
      · exact Or.inr ⟨x, hx, hr⟩

/-- C10: `parse_commands` reports a change exactly when the gate passes and some word of
the body is a recognized command token, even when no PR field is modified; the two
concrete conjuncts exhibit `r+` with a failing SHA and `p=` with a non-integer value
returning `true` while leaving every PR field unchanged. -/
theorem c10_changed_iff_recognized :
    (∀ (body username : String) (cfg : RepoCfg) (st : PullReqState) (my : String)
      (db : Store) (realtime : Bool) (sha : String) (berr : Option String),
      ((parse_commands body username cfg st my db realtime sha berr).changed = true ↔
        (username ∈ cfg.reviewers ∧ strContainsSub body ("@" ++ my) = true ∧
          ∃ w ∈ words body, RecognizedTok realtime w))) ∧
    ((parse_commands "@bot r+ zzzz" "rev" cfgEx stEx "bot" [] false "" none).changed = true ∧
      (parse_commands "@bot r+ zzzz" "rev" cfgEx stEx "bot" [] false "" none).state = stEx) ∧
    ((parse_commands "@bot p=abc" "rev" cfgEx stEx "bot" [] true "" none).changed = true ∧
      (parse_commands "@bot p=abc" "rev" cfgEx stEx "bot" [] true "" none).state = stEx) := by
  refine ⟨fun body username cfg st my db realtime sha berr => ?_, by decide, by decide⟩
  unfold parse_commands
  by_cases h1 : username ∉ cfg.reviewers
  · rw [if_pos h1]
    constructor
    · intro h; simp at h
    · rintro ⟨hrev, -, -⟩; exact absurd hrev h1
  rw [if_neg h1]
  by_cases h2 : ¬ strContainsSub body ("@" ++ my) = true
  · rw [if_pos h2]
    constructor
    · intro h; simp at h
    · rintro ⟨-, hsub, -⟩; exact absurd hsub h2
  rw [if_neg h2]
  rw [pcLoop_changed]
  push_neg at h1 h2
  constructor
  · rintro (h | h)
    · simp at h
    · exact ⟨h1, h2, h⟩
  · rintro ⟨-, -, h⟩
    exact Or.inr h

theorem pcStep_state_char (env : ParseEnv) (w : String) (nxt : Option String) (c : ParseSt) :
    (pcStep env w nxt c).state
      = applyWrites (stepWrites env c.state.head_sha w nxt c.sha) c.state := by
  unfold pcStep stepWrites
  cases nxt <;>
    (dsimp only
     split_ifs <;>
       first
         | rfl
         | (cases parsePyInt (strDrop w 2) <;> rfl))

theorem pcStep_sha (env : ParseEnv) (w : String) (nxt : Option String) (c : ParseSt) :
    (pcStep env w nxt c).sha = shaNext w nxt c.sha := by
  unfold pcStep shaNext
  cases nxt <;>
    (dsimp only
     split_ifs <;>
       first
         | rfl
         | (cases parsePyInt (strDrop w 2) <;> rfl))

theorem applyWrites_head_sha (u : FieldWrites) (st : PullReqState) :
    (applyWrites u st).head_sha = st.head_sha := rfl

theorem ow_getD {α : Type} (a b : Option α) (x : α) :
    (ow a b).getD x = a.getD (b.getD x) := by
  cases a <;> rfl

theorem applyWrites_merge (u2 u1 : FieldWrites) (st : PullReqState) :
    applyWrites (mergeW u2 u1) st = applyWrites u2 (applyWrites u1 st) := by
  simp [applyWrites, mergeW, ow_getD]

theorem getD_getD {α : Type} (o : Option α) (x : α) : o.getD (o.getD x) = o.getD x := by
  cases o <;> rfl

theorem applyWrites_self (u : FieldWrites) (st : PullReqState) :
    applyWrites u (applyWrites u st) = applyWrites u st := by
  simp [applyWrites, getD_getD]

theorem pcLoop_state_char (env : ParseEnv) :
    ∀ (ws : List String) (c : ParseSt),
      (pcLoop env ws c).state
        = applyWrites (loopWrites env c.state.head_sha ws c.sha) c.state := by
  intro ws
  induction ws with
  | nil =>
    intro c
    show c.state = applyWrites {} c.state
    rfl
  | cons w rest ih =>
    intro c
    show (pcLoop env rest (pcStep env w rest.head? c)).state = _
    rw [ih (pcStep env w rest.head? c), pcStep_state_char, pcStep_sha,
      applyWrites_head_sha]
    show _ = applyWrites
      (mergeW (loopWrites env c.state.head_sha rest (shaNext w rest.head? c.sha))
        (stepWrites env c.state.head_sha w rest.head? c.sha)) c.state
    rw [applyWrites_merge]

theorem pcLoop_head_sha (env : ParseEnv) (ws : List String) (c : ParseSt) :
    (pcLoop env ws c).state.head_sha = c.state.head_sha := by
  rw [pcLoop_state_char, applyWrites_head_sha]

theorem pcLoop_state_idem (env : ParseEnv) (ws : List String) (sha : String)
    (st : PullReqState) (db db2 : Store) :
    (pcLoop env ws ⟨sha, (pcLoop env ws ⟨sha, st, db, [], false⟩).state, db2, [], false⟩).state
      = (pcLoop env ws ⟨sha, st, db, [], false⟩).state := by
  rw [pcLoop_state_char env ws (⟨sha, st, db, [], false⟩ : ParseSt)]
  rw [pcLoop_state_char]
  show applyWrites (loopWrites env
      (applyWrites (loopWrites env st.head_sha ws sha) st).head_sha ws sha) _ = _
  rw [applyWrites_head_sha, applyWrites_self]

/-- C7: applying `parse_commands` twice with the same comment, author, sha context and
realtime flag yields the same PR fields as applying it once (realtime-only side effects
such as posted comments are outside the compared fields). -/
theorem c7_parse_commands_idempotent (body username : String) (cfg : RepoCfg)
    (st : PullReqState) (my : String) (db : Store) (realtime : Bool) (sha : String)
    (berr : Option String) :
    prFields (parse_commands body username cfg
        (parse_commands body username cfg st my db realtime sha berr).state my
        (parse_commands body username cfg st my db realtime sha berr).db
        realtime sha berr).state
      = prFields (parse_commands body username cfg st my db realtime sha berr).state := by
  unfold parse_commands
  by_cases h1 : username ∉ cfg.reviewers
  · simp only [if_pos h1]
  simp only [if_neg h1]
  by_cases h2 : ¬ strContainsSub body ("@" ++ my) = true
  · simp only [if_pos h2]
  simp only [if_neg h2]
  exact congrArg prFields (pcLoop_state_idem _ (words body) sha st db _)

theorem bucket_eq (s : String) : (STATUS_TO_PRIORITY s).getD (-1) = statusBucketSpec s := by
  unfold STATUS_TO_PRIORITY statusBucketSpec
  split_ifs <;> rfl

theorem pyListLt_iff_lex : ∀ (a b : List Int), pyListLt a b = true ↔ List.Lex (· < ·) a b := by
  intro a
  induction a with
  | nil =>
    intro b
    cases b with
    | nil => exact ⟨fun h => Bool.noConfusion h, fun h => by cases h⟩
    | cons y ys => exact ⟨fun _ => List.Lex.nil, fun _ => rfl⟩
  | cons x xs ih =>
    intro b
    cases b with
    | nil => exact ⟨fun h => Bool.noConfusion h, fun h => by cases h⟩
    | cons y ys =>
      show (if x < y then true else if y < x then false else pyListLt xs ys) = true ↔ _
      by_cases hxy : x < y
      · rw [if_pos hxy]
        exact ⟨fun _ => List.Lex.rel hxy, fun _ => rfl⟩
      rw [if_neg hxy]
      by_cases hyx : y < x
      · rw [if_pos hyx]
        constructor
        · intro h; exact Bool.noConfusion h
        · intro h
          cases h with
          | cons h => exact absurd hyx (lt_irrefl _)
          | rel h => exact absurd h hxy
      rw [if_neg hyx]
      have hxy' : x = y := le_antisymm (not_lt.mp hyx) (not_lt.mp hxy)
      subst hxy'
      rw [ih ys]
      constructor
      · exact fun h => List.Lex.cons h
      · intro h
        cases h with
        | cons h => exact h
        | rel h => exact absurd h hxy

/-- C3: `sort_key` equals the claimed six-component list, PR comparison (`__lt__`) is
lexicographic on that key with the smaller key sorting earlier, and when the first five
components agree the comparison reduces to PR number (older first). -/
theorem c3_sort_key_and_order :
    (∀ st : PullReqState,
      st.sort_key = [statusBucketSpec st.get_status,
        if st.mergeable = some false then 1 else 0,
        if st.approved_by = "" then 1 else 0,
        if st.rollup then 1 else 0,
        -st.priority, (st.num : Int)]) ∧
    (∀ a b : PullReqState,
      PullReqState.lt a b = true ↔ List.Lex (· < ·) a.sort_key b.sort_key) ∧
    (∀ a b : PullReqState, a.sort_key.take 5 = b.sort_key.take 5 →
      (PullReqState.lt a b = true ↔ a.num < b.num)) := by
  refine ⟨fun st => ?_, fun a b => pyListLt_iff_lex _ _, fun a b h => ?_⟩
  · unfold PullReqState.sort_key
    rw [bucket_eq]
    by_cases hab : st.approved_by = "" <;> simp [hab]
  · simp only [PullReqState.sort_key, List.take_succ_cons, List.take_zero,
      List.cons.injEq, and_true, eq_self_iff_true, true_and] at h
    obtain ⟨h1, h2, h3, h4, h5⟩ := h
    unfold PullReqState.lt PullReqState.sort_key
    rw [h1, h2, h3, h4, h5]
    simp only [pyListLt, lt_self_iff_false, if_false]
    by_cases hn : (a.num : Int) < (b.num : Int)
    · have : a.num < b.num := by exact_mod_cast hn
      simp [hn, this]
    · have : ¬ a.num < b.num := by
        intro hc
        exact hn (by exact_mod_cast hc)
      by_cases hn2 : (b.num : Int) < (a.num : Int) <;> simp [hn, hn2, this]

/-- C2 fails on the code: with a busy slot a try build is also declined (the state is
returned untouched, no build starts), and a try build started through the non-travis
path claims the slot with the new merge commit. -/
theorem c2_counterexample :
    ((start_build stTry platNT cfgNT "busysha" []).state = stTry ∧
      (start_build stTry platNT cfgNT "busysha" []).state.status ≠ "pending" ∧
      (start_build stTry platNT cfgNT "busysha" []).ret = .ret true) ∧
    ((start_build stTry platNT cfgNT "" []).state.status = "pending" ∧
      (start_build stTry platNT cfgNT "" []).slot = "merge-cccc3333") := by
  decide

/-- C2 amended: a busy slot declines every build, try or gated, leaving state, slot and
store untouched and returning `True`; a successful start sets `status="pending"` and
claims the slot with the merge commit exactly when no travis token is configured,
regardless of `try_`. -/
theorem c2_slot_behaviour (st : PullReqState) (p : Platform) (cfg : RepoCfg)
    (slot : String) (db : Store) (m : String)
    (hslot : slot ≠ "")
    (hhead : p.prHead st.num = some st.head_sha)
    (hmerge : p.mergeFn p.masterSha st.head_sha = some m) :
    (start_build st p cfg slot db).state = st ∧
    (start_build st p cfg slot db).slot = slot ∧
    (start_build st p cfg slot db).db = db ∧
    (start_build st p cfg slot db).ret = .ret true ∧
    (start_build st p cfg "" db).state.status = "pending" ∧
    (start_build st p cfg "" db).ret = .ret true ∧
    (start_build st p cfg "" db).slot = (if cfg.travis_token.isNone then m else "") := by
  have hbusy : start_build st p cfg slot db = ⟨.ret true, st, slot, db, []⟩ := by
    unfold start_build
    rw [if_pos hslot]
  have hfree1 : ¬ (("" : String) ≠ "") := by simp
  have hfree2 : ¬ (p.prHead st.num ≠ some st.head_sha) := by simp [hhead]
  refine ⟨by rw [hbusy], by rw [hbusy], by rw [hbusy], by rw [hbusy], ?_, ?_, ?_⟩ <;>
    (unfold start_build
     rw [if_neg hfree1, if_neg hfree2]
     (try simp only [hmerge])
     (try simp [PullReqState.set_status]))

theorem c2_slot_behaviour_witness :
    ("busysha" : String) ≠ "" ∧
    platNT.prHead stTry.num = some stTry.head_sha ∧
    platNT.mergeFn platNT.masterSha stTry.head_sha = some "merge-cccc3333" ∧
    (start_build stTry platNT cfgNT "busysha" []).state = stTry ∧
    (start_build stTry platNT cfgNT "" []).slot
      = (if cfgNT.travis_token.isNone then "merge-cccc3333" else "") :=
  ⟨by decide, by decide, by decide,
    (c2_slot_behaviour stTry platNT cfgNT "busysha" [] "merge-cccc3333" (by decide)
      (by decide) (by decide)).1,
    (c2_slot_behaviour stTry platNT cfgNT "busysha" [] "merge-cccc3333" (by decide)
      (by decide) (by decide)).2.2.2.2.2.2⟩

/-- C4 fails on the code: in a single tick over `[repo1, repoB]`, starting PR #1's
build in `repo1` makes `process_queue` return, so `repoB`'s approved PR #2 is never
examined and stays idle (with the slot free throughout: both repos use travis). -/
theorem c4_counterexample :
    ((processQueue [c4RepoA, c4RepoB] "" []).1.getD 0 c4RepoA).prs.map
        (fun s => (s.num, s.status)) = [(1, "pending")] ∧
    ((processQueue [c4RepoA, c4RepoB] "" []).1.getD 1 c4RepoA).prs.map
        (fun s => (s.num, s.status, s.approved_by)) = [(2, "", "rev")] ∧
    (processQueue [c4RepoA, c4RepoB] "" []).2.2.2.2 = true := by
  decide

/-- C4 amended: one tick walks the configured repositories in order, but a walk that
starts a build (or declines on a busy slot, or crashes on the head assert) ends the
entire `process_queue` call, so the repositories after it are returned untouched, not
examined. -/
theorem c4_tick_stops_across_repos (r : RepoState) (rest : List RepoState)
    (slot : String) (db : Store)
    (h : (processRepo r.cfg r.platform r.prs slot db).ctl ≠ TickCtl.done) :
    (processQueue (r :: rest) slot db).1
      = { r with prs := (processRepo r.cfg r.platform r.prs slot db).prs } :: rest := by
  cases hc : (processRepo r.cfg r.platform r.prs slot db).ctl with
  | done => exact absurd hc h
  | returned => simp only [processQueue, hc]
  | crashed => simp only [processQueue, hc]

theorem c4_tick_stops_across_repos_witness :
    (processRepo c4RepoA.cfg c4RepoA.platform c4RepoA.prs "" []).ctl ≠ TickCtl.done ∧
    (processQueue [c4RepoA, c4RepoB] "" []).1
      = { c4RepoA with
            prs := (processRepo c4RepoA.cfg c4RepoA.platform c4RepoA.prs "" []).prs }
          :: [c4RepoB] :=
  ⟨by decide, c4_tick_stops_across_repos c4RepoA [c4RepoB] "" [] (by decide)⟩

/-- C1 fails on the code: after the reachable event sequence `c1Events`, both PR #1 and
PR #2 of `repo1` have `status="pending"` with `try_=false` at the same time — the last
tick promotes the successful try build of PR #2 to a gated build although PR #1's gated
build is still in flight, because the travis path never claims the build slot and the
`success` bucket sorts before `pending` in the walk. -/
theorem c1_two_pending_gated_builds :
    ((runEvents c1World c1Events).repos.getD 0 c4RepoA).prs.map
        (fun s => (s.num, s.status, s.try_))
      = [(1, "pending", false), (2, "pending", false)] := by
  decide

theorem statesGet_set_ne (states : List ((String × Nat) × PullReqState))
    (k k' : String × Nat) (st : PullReqState) (h : k' ≠ k) :
    statesGet (statesSet states k' st) k = statesGet states k := by
  induction states with
  | nil => rfl
  | cons e rest ih =>
    show statesGet ((if e.1 = k' then (k', st) else e) :: statesSet rest k' st) k = _
    by_cases he : e.1 = k'
    · rw [if_pos he]
      unfold statesGet
      rw [List.find?_cons_of_neg _ (by simpa using h),
        List.find?_cons_of_neg _ (by simp [he, h])]
      exact ih
    · rw [if_neg he]
      by_cases hek : e.1 = k
      · unfold statesGet
        rw [List.find?_cons_of_pos _ (by simpa using hek),
          List.find?_cons_of_pos _ (by simpa using hek)]
      · unfold statesGet
        rw [List.find?_cons_of_neg _ (by simpa using hek),
          List.find?_cons_of_neg _ (by simpa using hek)]
        exact ih

theorem statesGet_set_eq (states : List ((String × Nat) × PullReqState))
    (k : String × Nat) (st st' : PullReqState) (h : statesGet states k = some st) :
    statesGet (statesSet states k st') k = some st' := by
  induction states with
  | nil => exact absurd h (by simp [statesGet])
  | cons e rest ih =>
    show statesGet ((if e.1 = k then (k, st') else e) :: statesSet rest k st') k = _
    by_cases he : e.1 = k
    · rw [if_pos he]
      unfold statesGet
      rw [List.find?_cons_of_pos _ (by simp)]
      rfl
    · rw [if_neg he]
      unfold statesGet
      rw [List.find?_cons_of_neg _ (by simpa using he)]
      apply ih
      unfold statesGet at h
      rwa [List.find?_cons_of_neg _ (by simpa using he)] at h

theorem scanRow_get_ne (repo_cfgs : String → RepoCfg)
    (acc : List ((String × Nat) × PullReqState) × Store)
    (row : (String × Nat) × (String × Option String)) (k : String × Nat)
    (h : row.1 ≠ k) :
    statesGet (scanRow repo_cfgs acc row).1 k = statesGet acc.1 k := by
  have hk : (row.1.1, row.1.2) ≠ k := by
    intro hc
    exact h (by rw [← hc])
  unfold scanRow
  dsimp only
  cases hg : statesGet acc.1 (row.1.1, row.1.2) with
  | none => rfl
  | some st =>
    dsimp only
    split_ifs <;>
      first
        | exact statesGet_set_ne _ _ _ _ hk
        | rfl

theorem scanRows_get_notmem (repo_cfgs : String → RepoCfg)
    (rows : List ((String × Nat) × (String × Option String)))
    (states : List ((String × Nat) × PullReqState)) (db : Store) (k : String × Nat)
    (h : ∀ row ∈ rows, row.1 ≠ k) :
    statesGet (scanRows repo_cfgs rows states db).1 k = statesGet states k := by
  induction rows generalizing states db with
  | nil => rfl
  | cons row rows ih =>
    show statesGet (List.foldl (scanRow repo_cfgs) (scanRow repo_cfgs (states, db) row)
        rows).1 k = _
    have step := scanRow_get_ne repo_cfgs (states, db) row k (h row (by simp))
    have tail := ih (scanRow repo_cfgs (states, db) row).1
      (scanRow repo_cfgs (states, db) row).2 (fun r hr => h r (by simp [hr]))
    unfold scanRows at tail
    rw [← step]
    exact tail

/-- Processing the row of key `k` when no later row shares the key: the final map at
`k` reflects exactly the branch the scan took on this row. -/
theorem scanRows_process_key (repo_cfgs : String → RepoCfg)
    (post : List ((String × Nat) × (String × Option String)))
    (repoName : String) (num : Nat) (rowStatus : String) (m : Option String)
    (A : List ((String × Nat) × PullReqState)) (B : Store) (st : PullReqState)
    (hpost : ∀ row ∈ post, row.1 ≠ (repoName, num))
    (hget : statesGet A (repoName, num) = some st) :
    statesGet (scanRows repo_cfgs (((repoName, num), (rowStatus, m)) :: post) A B).1
        (repoName, num)
      = (if m.getD "" ≠ "" then
          some { st with
            build_res := (if (repo_cfgs repoName).travis_token.isSome then ["travis"]
              else (repo_cfgs repoName).builders).map (fun x => (x, (none : Option Bool)))
            merge_sha := m.getD "" }
        else if st.status = "pending" then some { st with status := "" }
        else some st) := by
  have hcons : scanRows repo_cfgs (((repoName, num), (rowStatus, m)) :: post) A B
      = scanRows repo_cfgs post
          (scanRow repo_cfgs (A, B) ((repoName, num), (rowStatus, m))).1
          (scanRow repo_cfgs (A, B) ((repoName, num), (rowStatus, m))).2 := rfl
  rw [hcons, scanRows_get_notmem _ _ _ _ _ hpost]
  unfold scanRow
  dsimp only
  simp only [hget]
  by_cases hm : m.getD "" ≠ ""
  · rw [if_pos hm, if_pos hm]
    exact statesGet_set_eq _ _ _ _ hget
  · rw [if_neg hm, if_neg hm]
    by_cases hp : st.status = "pending"
    · rw [if_pos hp, if_pos hp]
      exact statesGet_set_eq _ _ _ _ hget
    · rw [if_neg hp, if_neg hp]
      exact hget

theorem stepWrites_status_none (env : ParseEnv) (hrt : env.realtime = false)
    (hs w : String) (nxt : Option String) (sha : String) :
    (stepWrites env hs w nxt sha).status = none := by
  unfold stepWrites
  cases nxt <;>
    (dsimp only
     split_ifs <;>
       first
         | rfl
         | (cases parsePyInt (strDrop w 2) <;> rfl)
         | (rename_i hbad
            rw [hrt] at hbad
            exact absurd hbad.2 Bool.false_ne_true))

theorem loopWrites_status_none (env : ParseEnv) (hrt : env.realtime = false)
    (hs : String) :
    ∀ (ws : List String) (sha : String), (loopWrites env hs ws sha).status = none := by
  intro ws
  induction ws with
  | nil => intro sha; rfl
  | cons w rest ih =>
    intro sha
    show (mergeW (loopWrites env hs rest (shaNext w rest.head? sha))
      (stepWrites env hs w rest.head? sha)).status = none
    show ow (loopWrites env hs rest (shaNext w rest.head? sha)).status
      (stepWrites env hs w rest.head? sha).status = none
    rw [ih, stepWrites_status_none env hrt]
    rfl

theorem parse_nonrealtime_status (body author : String) (cfg : RepoCfg)
    (st : PullReqState) (my : String) (db : Store) (sha : String) (berr : Option String) :
    (parse_commands body author cfg st my db false sha berr).state.status = st.status := by
  unfold parse_commands
  by_cases h1 : author ∉ cfg.reviewers
  · rw [if_pos h1]
  rw [if_neg h1]
  by_cases h2 : ¬ strContainsSub body ("@" ++ my) = true
  · rw [if_pos h2]
  rw [if_neg h2]
  rw [pcLoop_state_char]
  show (loopWrites _ st.head_sha (words body) sha).status.getD st.status = st.status
  rw [loopWrites_status_none _ rfl]
  rfl

/-- C8: replaying comments at startup (realtime=false) never changes `status`, so a
PR's in-memory status equals its persisted row status when the scan runs; the scan then
downgrades a `pending` PR whose row has no `merge_sha` to `""`, while a `pending` row
with a `merge_sha` keeps its status and gets `build_res` reinitialized with one pending
entry per configured builder (`travis` alone when a travis token is configured) and its
`merge_sha` restored. -/
theorem c8_startup_recovery :
    (∀ (body author : String) (cfg : RepoCfg) (st : PullReqState) (my : String)
        (db : Store) (sha : String) (berr : Option String),
      (parse_commands body author cfg st my db false sha berr).state.status = st.status) ∧
    (∀ (repo_cfgs : String → RepoCfg)
        (pre post : List ((String × Nat) × (String × Option String)))
        (repoName : String) (num : Nat) (rowStatus : String) (m : Option String)
        (states : List ((String × Nat) × PullReqState)) (db : Store) (st : PullReqState),
      (∀ row ∈ pre, row.1 ≠ (repoName, num)) →
      (∀ row ∈ post, row.1 ≠ (repoName, num)) →
      statesGet states (repoName, num) = some st →
      st.status = "pending" →
      ((m.getD "" = "" →
        statesGet (scanRows repo_cfgs (pre ++ ((repoName, num), (rowStatus, m)) :: post)
            states db).1 (repoName, num) = some { st with status := "" }) ∧
      (m.getD "" ≠ "" →
        statesGet (scanRows repo_cfgs (pre ++ ((repoName, num), (rowStatus, m)) :: post)
            states db).1 (repoName, num)
          = some { st with
              build_res := (if (repo_cfgs repoName).travis_token.isSome then ["travis"]
                else (repo_cfgs repoName).builders).map (fun x => (x, (none : Option Bool)))
              merge_sha := m.getD "" }))) := by
  refine ⟨parse_nonrealtime_status, ?_⟩
  intro repo_cfgs pre post repoName num rowStatus m states db st hpre hpost hget hpend
  have happ : scanRows repo_cfgs (pre ++ ((repoName, num), (rowStatus, m)) :: post)
      states db
      = scanRows repo_cfgs (((repoName, num), (rowStatus, m)) :: post)
          (scanRows repo_cfgs pre states db).1 (scanRows repo_cfgs pre states db).2 := by
    unfold scanRows
    rw [List.foldl_append]
  have hgetPre : statesGet (scanRows repo_cfgs pre states db).1 (repoName, num) = some st :=
    by rw [scanRows_get_notmem repo_cfgs pre states db _ hpre]; exact hget
  constructor
  · intro hm
    rw [happ, scanRows_process_key repo_cfgs post repoName num rowStatus m _ _ st hpost
      hgetPre]
    rw [if_neg (by simp [hm]), if_pos hpend]
  · intro hm
    rw [happ, scanRows_process_key repo_cfgs post repoName num rowStatus m _ _ st hpost
      hgetPre]
    rw [if_pos hm]

theorem c8_startup_recovery_witness :
    statesGet [(("repo1", 7), stPend7)] ("repo1", 7) = some stPend7 ∧
    stPend7.status = "pending" ∧
    statesGet (scanRows (fun _ => cfgEx) [(("repo1", 7), ("pending", none))]
        [(("repo1", 7), stPend7)] []).1 ("repo1", 7) = some { stPend7 with status := "" } ∧
    statesGet (scanRows (fun _ => cfgEx) [(("repo1", 7), ("pending", some "mmmm1111"))]
        [(("repo1", 7), stPend7)] []).1 ("repo1", 7)
      = some { stPend7 with build_res := [("travis", none)], merge_sha := "mmmm1111" } :=
  ⟨by decide, by decide,
    (c8_startup_recovery.2 (fun _ => cfgEx) [] [] "repo1" 7 "pending" none
      [(("repo1", 7), stPend7)] [] stPend7 (by simp) (by simp) (by decide) (by decide)).1
      (by decide),
    (c8_startup_recovery.2 (fun _ => cfgEx) [] [] "repo1" 7 "pending" (some "mmmm1111")
      [(("repo1", 7), stPend7)] [] stPend7 (by simp) (by simp) (by decide) (by decide)).2
      (by decide)⟩

theorem c3_sort_key_and_order_witness :
    stEx.sort_key.take 5 = stEx2.sort_key.take 5 ∧
    (PullReqState.lt stEx stEx2 = true ↔ stEx.num < stEx2.num) :=
  ⟨by decide, c3_sort_key_and_order.2.2 stEx stEx2 (by decide)⟩

end Homu
